import Mathlib

/-!
# A shallow embedding of the cronx core

This file embeds, in Lean, the parts of the `polyseam/cronx` TypeScript
code base that convert between natural-language schedules and five-field
cron expressions:

* `src/validators.ts` — the per-field cron grammar validators;
* `src/CronTabExpression.ts` — the expression value type, the hour-field
  timezone shifter `convertHourField` and the day-of-week index remapper
  `convertDayOfWeekToBase`;
* `src/cron.ts` — `convertCronToUTC` and
  `convertCronZeroBasedDaysToOneBased` (the remapper evolution with the
  wrap-around range split);
* `src/nlp.ts` — the natural-language parser
  (`getCronTabExpressionForNaturalLanguageSchedule` and its pattern
  matchers, in the later `PatternMatcher` class evolution that validates
  captured numeric tokens).

JS strings are modelled as `List Char`; JS numbers appearing in this code
are integers, modelled as `Int` with JS's truncated remainder (`Int.tmod`)
for `%`; `NaN` is modelled as `none` in `Option Int`.  Fallible code
returns `Except`.
-/

namespace Cronx

/-- JS strings, modelled as lists of characters. -/
abbrev Str := List Char

/-- The whitespace characters relevant to this code base (JS `\s`, ASCII part). -/
def isWs (c : Char) : Bool := c = ' ' || c = '\t' || c = '\n' || c = '\r'

/-- `s.split(sep)` for a one-character separator, with JS semantics:
`"".split(",") = [""]` and `"a,".split(",") = ["a", ""]`. -/
def splitChar (sep : Char) : Str → List Str
  | [] => [[]]
  | c :: rest =>
    if c = sep then [] :: splitChar sep rest
    else
      match splitChar sep rest with
      | [] => [[c]]
      | p :: ps => (c :: p) :: ps

/-- `array.join(sep)` for a one-character separator. -/
def joinChar (sep : Char) : List Str → Str
  | [] => []
  | [p] => p
  | p :: ps => p ++ sep :: joinChar sep ps

/-- JS `String.prototype.trim` (strips whitespace at both ends). -/
def trimChars (l : Str) : Str :=
  ((l.dropWhile isWs).reverse.dropWhile isWs).reverse

/-- JS `String.prototype.includes` for a substring. -/
def hasSub (needle : Str) : Str → Bool
  | [] => needle.isEmpty
  | c :: rest => needle.isPrefixOf (c :: rest) || hasSub needle rest

/-- JS `String.prototype.toUpperCase` (ASCII). -/
def toUpper (l : Str) : Str := l.map Char.toUpper

/-- JS `String.prototype.toLowerCase` (ASCII). -/
def toLower (l : Str) : Str := l.map Char.toLower

/-- The numeric value of a decimal digit character. -/
def digitVal (c : Char) : Nat := c.toNat - 48

/-- The number denoted by a list of decimal digit characters. -/
def digitsToNat (l : Str) : Nat := l.foldl (fun a c => a * 10 + digitVal c) 0

/-- Fueled helper for `natStr` (structural recursion so that the kernel can
evaluate it; `natStr` always supplies enough fuel, see `natStr_eq`). -/
def natStrAux : Nat → Nat → Str
  | 0, _ => []
  | fuel + 1, n =>
    if n < 10 then [Char.ofNat (48 + n)]
    else natStrAux fuel (n / 10) ++ [Char.ofNat (48 + n % 10)]

/-- Decimal string of a natural number (JS `Number.prototype.toString`):
`natStr n = if n < 10 then [digit n] else natStr (n / 10) ++ [digit (n % 10)]`
(the recurrence is proved as `natStr_eq`). -/
def natStr (n : Nat) : Str := natStrAux (n + 1) n

/-- Decimal string of an integer (JS `Number.prototype.toString`). -/
def intToStr (i : Int) : Str :=
  if i < 0 then '-' :: natStr i.natAbs else natStr i.toNat

/-- JS `parseInt(s, 10)`: skip leading whitespace, take an optional sign and
then the maximal run of decimal digits; `NaN` (here `none`) if that run is
empty.  (`parseInt("3-1") = 3`, `parseInt("abc") = NaN`.) -/
def jsParseInt (s : Str) : Option Int :=
  match s.dropWhile isWs with
  | [] => none
  | c :: rest =>
    if c = '-' then
      let d := rest.takeWhile Char.isDigit
      if d.isEmpty then none else some (-(digitsToNat d : Int))
    else if c = '+' then
      let d := rest.takeWhile Char.isDigit
      if d.isEmpty then none else some (digitsToNat d)
    else
      let d := (c :: rest).takeWhile Char.isDigit
      if d.isEmpty then none else some (digitsToNat d)

/-- JS `Number(s)` on the integer-denoting strings this code base feeds it:
whitespace is trimmed, the empty string denotes `0`, an optionally signed
all-digit string denotes its value, and anything else is `NaN` (`none`).
(Fractional literals never occur in cron fields, so they are mapped to
`NaN` here as well.) -/
def jsNumber (s : Str) : Option Int :=
  match trimChars s with
  | [] => some 0
  | c :: rest =>
    if c = '-' then
      if !rest.isEmpty && rest.all Char.isDigit then some (-(digitsToNat rest : Int)) else none
    else if c = '+' then
      if !rest.isEmpty && rest.all Char.isDigit then some (digitsToNat rest) else none
    else if (c :: rest).all Char.isDigit then some (digitsToNat (c :: rest)) else none

/-- JS `===` on possibly-NaN numbers (`NaN === x` is false). -/
def jsEq (a b : Option Int) : Bool :=
  match a, b with
  | some x, some y => x == y
  | _, _ => false

/-- JS `<` on possibly-NaN numbers (comparisons with `NaN` are false). -/
def jsLt (a b : Option Int) : Bool :=
  match a, b with
  | some x, some y => decide (x < y)
  | _, _ => false

/-- JS `<=` on possibly-NaN numbers (comparisons with `NaN` are false). -/
def jsLe (a b : Option Int) : Bool :=
  match a, b with
  | some x, some y => decide (x ≤ y)
  | _, _ => false

/-- JS number-to-string, with `NaN` printing as `"NaN"`. -/
def jsNumToStr (a : Option Int) : Str :=
  match a with
  | some n => intToStr n
  | none => "NaN".toList

/-- JS `s.split(/\s+/)` on an already-trimmed string: the maximal runs of
non-whitespace characters. -/
def splitWsRuns : Str → List Str
  | [] => []
  | c :: rest =>
    if isWs c then splitWsRuns rest
    else
      match rest, splitWsRuns rest with
      | r :: _, p :: ps => if isWs r then [c] :: p :: ps else (c :: p) :: ps
      | _, _ => [[c]]

end Cronx

namespace Cronx

/-! ## `src/validators.ts` -/

/-- `CronTabExpression.DAY_NAMES` (also inlined in `validateDayOfWeek`). -/
def DAY_NAMES : List Str :=
  ["SUN", "MON", "TUE", "WED", "THU", "FRI", "SAT"].map String.toList

/-- `CronTabExpression.MONTH_NAMES` (also inlined in `validateMonth`). -/
def MONTH_NAMES : List Str :=
  ["JAN", "FEB", "MAR", "APR", "MAY", "JUN", "JUL", "AUG", "SEP", "OCT",
   "NOV", "DEC"].map String.toList

/-- `validateRangePart` from `src/validators.ts`: ranges first (both ends
numeric via `Number`, within `[min, max]`, and `start <= end`), then comma
lists (each element a day/month name or a `parseInt`-number in range), then
a single `parseInt`-number in range. -/
def validateRangePart (value : Str) (min max : Int) : Bool :=
  if value.contains '-' then
    let parts := splitChar '-' value
    match jsNumber (parts.getD 0 []), jsNumber (parts.getD 1 []) with
    | some start, some stop =>
      decide (min ≤ start) && decide (stop ≤ max) && decide (start ≤ stop)
    | _, _ => false
  else if value.contains ',' then
    (splitChar ',' value).all fun v =>
      match jsNumber v with
      | none =>
        let vU := toUpper v
        DAY_NAMES.contains vU || MONTH_NAMES.contains vU
      | some _ =>
        match jsParseInt v with
        | some num => decide (min ≤ num) && decide (num ≤ max)
        | none => false
  else
    match jsParseInt value with
    | some num => decide (min ≤ num) && decide (num ≤ max)
    | none => false

/-- `validateRange` from `src/validators.ts`: wildcard, step values
(`base/step` with a positive integer step), otherwise `validateRangePart`. -/
def validateRange (value : Str) (min max : Int) : Bool :=
  if value = "*".toList then true
  else if value.contains '/' then
    let parts := splitChar '/' value
    let range := parts.getD 0 []
    let step := parts.getD 1 []
    match jsParseInt step with
    | none => false
    | some stepNum =>
      if stepNum < 1 then false
      else if range = "*".toList then true
      else validateRangePart range min max
  else validateRangePart value min max

/-- `validateMinute` from `src/validators.ts`. -/
def validateMinute (value : Str) : Bool := validateRange value 0 59

/-- `validateHour` from `src/validators.ts`. -/
def validateHour (value : Str) : Bool := validateRange value 0 23

/-- `validateDayOfMonth` from `src/validators.ts` (`?`, `L`, `nW`, `L-n`
extensions, then `validateRange 1 31`). -/
def validateDayOfMonth (value : Str) : Bool :=
  if value = "?".toList then true
  else if value = "L".toList then true
  else if "W".toList.isSuffixOf value then validateRange value.dropLast 1 31
  else if hasSub "L-".toList value then
    validateRange ((splitChar '-' value).getD 1 []) 1 31
  else validateRange value 1 31

/-- `validateMonth` from `src/validators.ts` (wildcard, 3-letter names
case-insensitively, then `validateRange 1 12`). -/
def validateMonth (value : Str) : Bool :=
  if value = "*".toList then true
  else if MONTH_NAMES.any (fun m => m = toUpper value) then true
  else validateRange value 1 12

/-- `validateDayOfWeek` from `src/validators.ts` (`?`, `L`, `nL`, `n#m`
extensions, 3-letter names, then `validateRange 0 6`). -/
def validateDayOfWeek (value : Str) : Bool :=
  if value = "?".toList then true
  else if value = "L".toList then true
  else if "L".toList.isSuffixOf value then validateRange value.dropLast 0 7
  else if value.contains '#' then
    let parts := splitChar '#' value
    validateRange (parts.getD 0 []) 0 6 && validateRange (parts.getD 1 []) 1 5
  else if DAY_NAMES.any (fun d => d = toUpper value) then true
  else validateRange value 0 6

/-- `validateCronTabExpressionString` from `src/validators.ts`: trim, split
on whitespace runs, require exactly five fields, and validate each field
with its per-field validator. -/
def validateCronTabExpressionString (expression : Str) : Bool :=
  match splitWsRuns (trimChars expression) with
  | [minute, hour, dayOfMonth, month, dayOfWeek] =>
    validateMinute minute && validateHour hour && validateDayOfMonth dayOfMonth
      && validateMonth month && validateDayOfWeek dayOfWeek
  | _ => false

end Cronx

namespace Cronx

/-! ## `src/CronTabExpression.ts` -/

/-- One comma-piece of `convertHourField` (the `flatMap` body in
`src/CronTabExpression.ts`): `*` passes through, a range shifts both ends
by `-timezoneOffset` modulo 24 (JS `%`, i.e. `Int.tmod`), collapsing an
equal pair, keeping an ordered pair as a range and splitting a wrapped
pair into `start-23` (just `23` when `start` is 23) and `0-end`; a single
value shifts the same way. -/
def convertHourPart (timezoneOffset : Int) (part : Str) : List Str :=
  if part = "*".toList then ["*".toList]
  else if part.contains '-' then
    let pieces := splitChar '-' part
    let start := (jsNumber (pieces.getD 0 [])).map
      (fun n => (n - timezoneOffset + 24).tmod 24)
    let stop := (jsNumber (pieces.getD 1 [])).map
      (fun n => (n - timezoneOffset + 24).tmod 24)
    if jsEq start stop then [jsNumToStr start]
    else if jsLt start stop then [jsNumToStr start ++ '-' :: jsNumToStr stop]
    else
      [(if jsEq start (some 23) then "23".toList
        else jsNumToStr start ++ "-23".toList),
       "0-".toList ++ jsNumToStr stop]
  else
    [jsNumToStr ((jsNumber part).map (fun n => (n - timezoneOffset + 24).tmod 24))]

/-- `convertHourField` from `src/CronTabExpression.ts` (identical to the
nested `convertHourField` of `convertCronToUTC` in `src/cron.ts`): split
the hour field on commas, shift every piece, flatten and re-join. -/
def convertHourField (hourField : Str) (timezoneOffset : Int) : Str :=
  joinChar ',' ((splitChar ',' hourField).flatMap (convertHourPart timezoneOffset))

/-- The guard `/^[A-Za-z\?\*Ll#]/.test(piece)` of
`CronTabExpression.convertDayOfWeekToBase`. -/
def dowLiteralGuard (piece : Str) : Bool :=
  match piece with
  | [] => false
  | c :: _ => c.isAlpha || c = '?' || c = '*' || c = '#'

/-- Fueled helper for `convertDayOfWeekToBase`.  The source method recurses
on the base part of a step token `X/Y`; the fuel only drives structural
recursion (so the kernel can evaluate the function), and
`convertDayOfWeekToBase` always supplies enough of it, see
`convertDayOfWeekToBase_eq`. -/
def convertDayOfWeekToBaseAux : Nat → Str → Nat → Str
  | 0, dowField, _ => dowField
  | fuel + 1, dowField, sundayIs =>
    let pieces := (splitChar ',' dowField).map trimChars
    let mappedPieces := pieces.map fun piece =>
      if dowLiteralGuard piece || piece.isEmpty ||
          ((jsParseInt piece).isNone && !piece.contains '-' && !piece.contains '/') then
        piece
      else if piece.contains '/' then
        let rangePart := (splitChar '/' piece).getD 0 []
        let stepPart := (splitChar '/' piece).getD 1 []
        convertDayOfWeekToBaseAux fuel rangePart sundayIs ++ '/' :: stepPart
      else if piece.contains '-' then
        let startStr := (splitChar '-' piece).getD 0 []
        let endStr := (splitChar '-' piece).getD 1 []
        match jsParseInt startStr, jsParseInt endStr with
        | some startNum, some endNum =>
          intToStr (if sundayIs = 1 then (startNum + 6).tmod 7 else startNum + 1)
            ++ '-' :: intToStr (if sundayIs = 1 then (endNum + 6).tmod 7 else endNum + 1)
        | _, _ => piece
      else
        match jsParseInt piece with
        | some num => intToStr (if sundayIs = 1 then (num + 6).tmod 7 else num + 1)
        | none => piece
    joinChar ',' mappedPieces

/-- `CronTabExpression.convertDayOfWeekToBase` from
`src/CronTabExpression.ts`: split on commas and trim; pass through pieces
that start with a letter/`?`/`*`/`#`, are empty, or are `parseInt`-NaN
without `-` or `/`; recurse on the base of a step `X/Y`; remap both ends
of a range `A-B`; remap a single number.  The remap is `(n + 6) % 7` when
`sundayIs = 1` (1-based input → 0-based) and `n + 1` when `sundayIs = 0`
(0-based input → 1-based).  No wrap-around split is performed here.  The
defining recurrence is proved as `convertDayOfWeekToBase_eq`. -/
def convertDayOfWeekToBase (dowField : Str) (sundayIs : Nat) : Str :=
  convertDayOfWeekToBaseAux (dowField.length + 1) dowField sundayIs

/-- The `CronTabExpression` value: the raw expression string, the owned
UTC offset, and the whitespace-split parts stored by the constructor. -/
structure CronTabExpression where
  expression : Str
  offset : Int
  parts : List Str
deriving DecidableEq, Repr

/-- JS `s.split(/\s+/)` in general (without a preceding trim): runs of
whitespace separate, with empty fragments at a whitespace start/end. -/
def jsSplitWsAll (l : Str) : List Str :=
  match l with
  | [] => [[]]
  | c :: _ =>
    (if isWs c then [([] : Str)] else []) ++ splitWsRuns l ++
      (if isWs (l.getLastD ' ') then [([] : Str)] else [])

/-- `CronTabExpression.validate` from `src/CronTabExpression.ts`: it calls
the boolean `validateCronTabExpressionString` and returns — the boolean is
discarded and nothing in the method can throw. -/
def CronTabExpression.validate (expression : Str) : Bool :=
  validateCronTabExpressionString expression

/-- The `CronTabExpression` constructor: store the offset, split the
expression on whitespace, and call `validate` (whose result is ignored).
Construction therefore never fails, which the `Except` return makes
visible: the result is always `.ok`. -/
def CronTabExpression.construct (expression : Str) (offset : Int) :
    Except Str CronTabExpression :=
  let _ := CronTabExpression.validate expression
  .ok { expression := expression, offset := offset, parts := jsSplitWsAll expression }

/-- `CronTabExpression.format` from `src/CronTabExpression.ts`: split the
expression on single spaces, require five parts, shift the hour field by
`offset - toOffset` and remap the day-of-week field with
`convertDayOfWeekToBase · sundayIs`. -/
def CronTabExpression.format (e : CronTabExpression) (sundayIs : Nat)
    (toOffset : Int) : Except Str Str :=
  match splitChar ' ' e.expression with
  | [minute, hx, dayOfMonth, month, dx] =>
    .ok (joinChar ' '
      [minute, convertHourField hx (e.offset - toOffset), dayOfMonth, month,
       convertDayOfWeekToBase dx sundayIs])
  | _ => .error "Invalid cron expression format: expected 5 parts.".toList

/-! ## `src/cron.ts` -/

/-- One comma-piece of the nested `convertDayField` of
`convertCronZeroBasedDaysToOneBased` in `src/cron.ts`: `*` passes
through; a range maps both ends with `(n % 7) + 1` and, when the mapped
start exceeds the mapped end, splits into `start-7` and `1-end` (dropping
a piece that would end in `-0`); a single value maps with `(n % 7) + 1`. -/
def convertDayPart (dayPart : Str) : List Str :=
  if dayPart = "*".toList then ["*".toList]
  else if dayPart.contains '-' then
    let pieces := splitChar '-' dayPart
    let start := (jsNumber (pieces.getD 0 [])).map (fun n => n.tmod 7 + 1)
    let stop := (jsNumber (pieces.getD 1 [])).map (fun n => n.tmod 7 + 1)
    if jsLe start stop then [jsNumToStr start ++ '-' :: jsNumToStr stop]
    else
      ([jsNumToStr start ++ "-7".toList, "1-".toList ++ jsNumToStr stop]).filter
        (fun range => !("-0".toList.isSuffixOf range))
  else [jsNumToStr ((jsNumber dayPart).map (fun n => n.tmod 7 + 1))]

/-- The nested `convertDayField` of `convertCronZeroBasedDaysToOneBased`
in `src/cron.ts`: split the day-of-week field on commas, convert every
piece with `convertDayPart`, flatten and re-join. -/
def convertDayField (dayField : Str) : Str :=
  joinChar ',' ((splitChar ',' dayField).flatMap convertDayPart)

/-- `convertCronZeroBasedDaysToOneBased` from `src/cron.ts`: trim, split
on single spaces, require exactly five fields, and rewrite the
day-of-week field with `convertDayField`. -/
def convertCronZeroBasedDaysToOneBased (cronTab : Str) : Except Str Str :=
  match splitChar ' ' (trimChars cronTab) with
  | [minute, hour, dayOfMonth, month, dayOfWeek] =>
    .ok (joinChar ' ' [minute, hour, dayOfMonth, month, convertDayField dayOfWeek])
  | _ => .error "Invalid cronTab string; expected exactly 5 fields.".toList

end Cronx


namespace Cronx

/-- Decidable equality for `Except` results. -/
instance {e a : Type} [DecidableEq e] [DecidableEq a] : DecidableEq (Except e a) := fun x y =>
  match x, y with
  | .error u, .error v =>
    if h : u = v then isTrue (by rw [h]) else isFalse (by intro hh; cases hh; exact h rfl)
  | .error _, .ok _ => isFalse (by intro hh; cases hh)
  | .ok _, .error _ => isFalse (by intro hh; cases hh)
  | .ok u, .ok v =>
    if h : u = v then isTrue (by rw [h]) else isFalse (by intro hh; cases hh; exact h rfl)

end Cronx

namespace Cronx

/-! ## `src/nlp.ts` — the `PatternMatcher` class evolution -/

/-- The error taxonomy of `src/nlp.ts`: `InvalidNaturalLanguageError` and
`InvalidCronExpressionError` (both extending `NLPError`), carrying the
same constructor arguments as the source classes. -/
inductive NLPError where
  | invalidNaturalLanguage (input message : Str)
  | invalidCronExpression (expression message : Str)
deriving DecidableEq, Repr

/-- `DAYS_OF_WEEK` from `src/nlp.ts`, in object-entry order. -/
def DAYS_OF_WEEK : List (Str × Nat) :=
  [("sunday", 0), ("monday", 1), ("tuesday", 2), ("wednesday", 3),
   ("thursday", 4), ("friday", 5), ("saturday", 6)].map
    (fun p => (p.1.toList, p.2))

/-- `MONTHS` from `src/nlp.ts`, in object-entry order. -/
def MONTHS : List (Str × Nat) :=
  [("january", 1), ("february", 2), ("march", 3), ("april", 4), ("may", 5),
   ("june", 6), ("july", 7), ("august", 8), ("september", 9),
   ("october", 10), ("november", 11), ("december", 12)].map
    (fun p => (p.1.toList, p.2))

/-- `TimeUtils.convertTo24Hour`: `pm` adds 12 below 12, `am` maps 12 to 0. -/
def convertTo24Hour (hour : Int) (period : Str) : Int :=
  let p := toLower period
  if p = "pm".toList ∧ hour < 12 then hour + 12
  else if p = "am".toList ∧ hour = 12 then 0
  else hour

/-- `TimeUtils.validateTime`: hour must be 0–23 and minute 0–59, otherwise
an `InvalidNaturalLanguageError` is thrown. -/
def validateTime (hour minute : Int) : Except NLPError Unit :=
  if hour < 0 ∨ 23 < hour then
    .error (.invalidNaturalLanguage (intToStr hour ++ ':' :: intToStr minute)
      "Hour must be between 0 and 23".toList)
  else if minute < 0 ∨ 59 < minute then
    .error (.invalidNaturalLanguage (intToStr hour ++ ':' :: intToStr minute)
      "Minute must be between 0 and 59".toList)
  else .ok ()

/-- Helper for `replace(/\s+/g, " ")`: the flag records whether the
previous character was whitespace (in which case the run was already
replaced by a single space). -/
def collapseWsAux : Bool → Str → Str
  | _, [] => []
  | prevWs, c :: rest =>
    if isWs c then
      if prevWs then collapseWsAux true rest else ' ' :: collapseWsAux true rest
    else c :: collapseWsAux false rest

/-- JS `replace(/\s+/g, " ")`: every whitespace run becomes one space. -/
def collapseWs (l : Str) : Str := collapseWsAux false l

/-- `InputUtils.normalizeInput`: a falsy (empty) input throws; otherwise
lowercase, trim, and collapse whitespace runs to single spaces. -/
def normalizeInput (input : Str) : Except NLPError Str :=
  if input.isEmpty then
    .error (.invalidNaturalLanguage input "Input must be a non-empty string".toList)
  else .ok (collapseWs (trimChars (toLower input)))

/-- `PatternMatcher.matchBasicPatterns`: the exact-keyword tier. -/
def matchBasicPatterns (input : Str) : Option Str :=
  if input = "every minute".toList ∨ input = "every 1 minute".toList ∨
      input = "minutely".toList then some "* * * * *".toList
  else if input = "every hour".toList ∨ input = "every 1 hour".toList ∨
      input = "hourly".toList then some "0 * * * *".toList
  else if input = "every day".toList ∨ input = "every 1 day".toList ∨
      input = "daily".toList then some "0 0 * * *".toList
  else if input = "every week".toList ∨ input = "every 1 week".toList ∨
      input = "weekly".toList then some "0 0 * * 0".toList
  else if input = "every month".toList ∨ input = "every 1 month".toList ∨
      input = "monthly".toList then some "0 0 1 * *".toList
  else if input = "every year".toList ∨ input = "every 1 year".toList ∨
      input = "yearly".toList ∨ input = "annually".toList then
    some "0 0 1 1 *".toList
  else none

/-- `lit.isPrefixOf s`, returning the remainder after the literal. -/
def stripLit (lit s : Str) : Option Str :=
  if lit.isPrefixOf s then some (s.drop lit.length) else none

/-- The maximal leading run of decimal digits and the remainder. -/
def takeDigitRun (s : Str) : Str × Str :=
  (s.takeWhile Char.isDigit, s.dropWhile Char.isDigit)

/-- One attempt of `/every (\d+) <unit>\s*$/` at the start of `s`:
the literal `every `, a nonempty digit run, a space and the unit word,
then only whitespace up to the end. -/
def tryEveryIntervalAt (unit : Str) (s : Str) : Option Str :=
  match stripLit "every ".toList s with
  | none => none
  | some r =>
    let (d, r1) := takeDigitRun r
    if d.isEmpty then none
    else
      match stripLit (' ' :: unit) r1 with
      | none => none
      | some r2 => if r2.all isWs then some d else none

/-- `input.match(/every (\d+) <unit>\s*$/)`: the captured digit run of the
leftmost match. -/
def scanEveryInterval (unit : Str) : Str → Option Str
  | [] => none
  | c :: rest =>
    match tryEveryIntervalAt unit (c :: rest) with
    | some d => some d
    | none => scanEveryInterval unit rest

/-- `PatternMatcher.matchIntervalPatterns`: `every N minutes|hours|days`
(each scanned in turn, later matches overwriting earlier ones); a captured
interval outside its bound throws `InvalidNaturalLanguageError`. -/
def matchIntervalPatterns (input : Str) : Except NLPError (Option Str) := do
  let mut expression : Option Str := none
  match scanEveryInterval "minutes".toList input with
  | some d =>
    let interval := digitsToNat d
    if interval ≤ 0 ∨ 59 < interval then
      throw (.invalidNaturalLanguage input
        "Minute interval must be between 1 and 59".toList)
    expression := some ("*/".toList ++ natStr interval ++ " * * * *".toList)
  | none => pure ()
  match scanEveryInterval "hours".toList input with
  | some d =>
    let interval := digitsToNat d
    if interval ≤ 0 ∨ 23 < interval then
      throw (.invalidNaturalLanguage input
        "Hour interval must be between 1 and 23".toList)
    expression := some ("0 */".toList ++ natStr interval ++ " * * *".toList)
  | none => pure ()
  match scanEveryInterval "days".toList input with
  | some d =>
    let interval := digitsToNat d
    if interval ≤ 0 ∨ 31 < interval then
      throw (.invalidNaturalLanguage input
        "Day interval must be between 1 and 31".toList)
    expression := some ("0 0 */".toList ++ natStr interval ++ " * *".toList)
  | none => pure ()
  return expression

/-- Exactly `"am"` or `"pm"` up to the end of the string. -/
def periodEnd (s : Str) : Option Str :=
  if s = "am".toList then some "am".toList
  else if s = "pm".toList then some "pm".toList
  else none

/-- `"am"` or `"pm"` as a prefix of the string. -/
def periodAt (s : Str) : Option Str :=
  if "am".toList.isPrefixOf s then some "am".toList
  else if "pm".toList.isPrefixOf s then some "pm".toList
  else none

/-- The anchored `/^(every month|monthly) at (\d{1,2}):(\d{2})(am|pm)$/`:
hour digits (one or two), a colon, exactly two minute digits, a period. -/
def parseMonthlyColon (input : Str) : Option (Str × Str × Str) :=
  match stripLit "every month at ".toList input <|>
      stripLit "monthly at ".toList input with
  | none => none
  | some r =>
    let (d1, r1) := takeDigitRun r
    if d1.isEmpty ∨ 2 < d1.length then none
    else
      match r1 with
      | ':' :: r2 =>
        let (d2, r3) := takeDigitRun r2
        if d2.length = 2 then
          match periodEnd r3 with
          | some p => some (d1, d2, p)
          | none => none
        else none
      | _ => none

/-- The anchored `/^(every month|monthly) at (\d{1,2})(am|pm)$/`. -/
def parseMonthlyPlain (input : Str) : Option (Str × Str) :=
  match stripLit "every month at ".toList input <|>
      stripLit "monthly at ".toList input with
  | none => none
  | some r =>
    let (d1, r1) := takeDigitRun r
    if d1.isEmpty ∨ 2 < d1.length then none
    else
      match periodEnd r1 with
      | some p => some (d1, p)
      | none => none

/-- `PatternMatcher.matchMonthlyPatterns`: the two anchored monthly-time
patterns, each converting to 24h and validating the captured time. -/
def matchMonthlyPatterns (input : Str) : Except NLPError (Option Str) := do
  let mut expression : Option Str := none
  match parseMonthlyColon input with
  | some (d1, d2, p) =>
    let minute : Int := digitsToNat d2
    let hour := convertTo24Hour (digitsToNat d1) p
    validateTime hour minute
    expression := some (intToStr minute ++ ' ' :: intToStr hour ++ " 1 * *".toList)
  | none => pure ()
  match parseMonthlyPlain input with
  | some (d1, p) =>
    let hour := convertTo24Hour (digitsToNat d1) p
    validateTime hour 0
    expression := some ("0 ".toList ++ intToStr hour ++ " 1 * *".toList)
  | none => pure ()
  return expression

/-- The anchored
`/^(every year|yearly|annually) at (\d{1,2})(?::(\d{2}))?\s?(am|pm)?$/`:
hour digits, an optional `:MM` (exactly two digits), an optional single
whitespace, an optional period, end of string. -/
def parseYearly (input : Str) : Option (Str × Option Str × Option Str) :=
  match stripLit "every year at ".toList input <|>
      stripLit "yearly at ".toList input <|>
      stripLit "annually at ".toList input with
  | none => none
  | some r =>
    let (d1, r1) := takeDigitRun r
    if d1.isEmpty ∨ 2 < d1.length then none
    else
      let step2 : Option (Option Str × Str) :=
        match r1 with
        | ':' :: r2 =>
          let (d2, r3) := takeDigitRun r2
          if d2.length = 2 then some (some d2, r3) else none
        | _ => some (none, r1)
      match step2 with
      | none => none
      | some (md2, r4) =>
        let r5 := match r4 with
          | c :: rr => if isWs c then rr else r4
          | [] => r4
        match r5 with
        | [] => some (d1, md2, none)
        | _ =>
          match periodEnd r5 with
          | some p => some (d1, md2, some p)
          | none => none

/-- `PatternMatcher.matchYearlyPatterns`. -/
def matchYearlyPatterns (input : Str) : Except NLPError (Option Str) := do
  match parseYearly input with
  | none => return none
  | some (d1, md2, mp) =>
    let minute : Int := digitsToNat (md2.getD "0".toList)
    let hour : Int := match mp with
      | some p => convertTo24Hour (digitsToNat d1) p
      | none => digitsToNat d1
    validateTime hour minute
    return some (intToStr minute ++ ' ' :: intToStr hour ++ " 1 1 *".toList)

/-- The optional `(?::(\d+))?` group: a colon must be followed by at least
one digit, otherwise the whole attempt at this position fails (a colon
cannot be consumed by anything else in these patterns). -/
def optColonDigits (s : Str) : Option (Option Str × Str) :=
  match s with
  | ':' :: rr =>
    let (d, r) := takeDigitRun rr
    if d.isEmpty then none else some (some d, r)
  | _ => some (none, s)

/-- One attempt of
`/from (\d+)(?::(\d+))?\s*(am|pm) to (\d+)(?::(\d+))?\s*(am|pm)/` at the
start of `s`. -/
def tryTimeRangeAt (s : Str) :
    Option (Str × Option Str × Str × Str × Option Str × Str) :=
  match stripLit "from ".toList s with
  | none => none
  | some r =>
    let (d1, r1) := takeDigitRun r
    if d1.isEmpty then none
    else
      match optColonDigits r1 with
      | none => none
      | some (m1, r2) =>
        let r3 := r2.dropWhile isWs
        match periodAt r3 with
        | none => none
        | some p1 =>
          match stripLit " to ".toList (r3.drop 2) with
          | none => none
          | some r4 =>
            let (d2, r5) := takeDigitRun r4
            if d2.isEmpty then none
            else
              match optColonDigits r5 with
              | none => none
              | some (m2, r6) =>
                let r7 := r6.dropWhile isWs
                match periodAt r7 with
                | none => none
                | some p2 => some (d1, m1, p1, d2, m2, p2)

/-- The leftmost match of the time-range pattern. -/
def scanTimeRange : Str → Option (Str × Option Str × Str × Str × Option Str × Str)
  | [] => none
  | c :: rest =>
    match tryTimeRangeAt (c :: rest) with
    | some t => some t
    | none => scanTimeRange rest

/-- `PatternMatcher.matchTimeRangePatterns`: requires the substrings
`from` and `to`, extracts the range, converts both ends to 24h, validates
them, and picks the minute field from an embedded interval phrase.
Returns `(minute, hour)` on a match. -/
def matchTimeRangePatterns (input : Str) : Except NLPError (Option (Str × Str)) := do
  if hasSub "from".toList input && hasSub "to".toList input then
    match scanTimeRange input with
    | none => return none
    | some (d1, m1, p1, d2, m2, p2) =>
      let startMinute : Int := digitsToNat (m1.getD "0".toList)
      let endMinute : Int := digitsToNat (m2.getD "0".toList)
      let startHour := convertTo24Hour (digitsToNat d1) p1
      let endHour := convertTo24Hour (digitsToNat d2) p2
      validateTime startHour startMinute
      validateTime endHour endMinute
      let hour := intToStr startHour ++ '-' :: intToStr endHour
      let minute :=
        if hasSub "every 30 minutes".toList input then "*/30".toList
        else if hasSub "every 15 minutes".toList input then "*/15".toList
        else if hasSub "every hour".toList input then "0".toList
        else "0".toList
      return some (minute, hour)
  else return none

/-- JS string `<` (lexicographic on code units), used by the default
`Array.prototype.sort` comparator. -/
def lexLt : Str → Str → Bool
  | [], [] => false
  | [], _ :: _ => true
  | _ :: _, [] => false
  | a :: as, b :: bs =>
    if a.toNat < b.toNat then true
    else if b.toNat < a.toNat then false
    else lexLt as bs

/-- Insertion step of `sortJSNum`. -/
def insertJS (x : Nat) : List Nat → List Nat
  | [] => [x]
  | y :: ys => if lexLt (natStr y) (natStr x) then y :: insertJS x ys else x :: y :: ys

/-- JS `numbers.sort()` — the default comparator compares the numbers'
decimal strings lexicographically (so `[2, 10].sort()` is `[10, 2]`).
All lists this code base sorts have distinct elements, for which any
comparison sort agrees with this insertion sort. -/
def sortJSNum : List Nat → List Nat
  | [] => []
  | x :: xs => insertJS x (sortJSNum xs)

/-- `PatternMatcher.matchDayOfWeekPatterns`: `weekday` → `1-5`,
`weekend` → `0,6`, otherwise the mentioned day names (in entry order),
sorted and comma-joined. -/
def matchDayOfWeekPatterns (input : Str) : Option Str :=
  if hasSub "weekday".toList input then some "1-5".toList
  else if hasSub "weekend".toList input then some "0,6".toList
  else
    let days := (DAYS_OF_WEEK.filter (fun p => hasSub p.1 input)).map Prod.snd
    if days.isEmpty then none
    else some (joinChar ',' ((sortJSNum days).map natStr))

/-- An ordinal suffix `st|nd|rd|th` as a prefix of the string. -/
def ordSuffixAt (s : Str) : Bool :=
  "st".toList.isPrefixOf s || "nd".toList.isPrefixOf s ||
    "rd".toList.isPrefixOf s || "th".toList.isPrefixOf s

/-- One attempt of `/(\d+)(st|nd|rd|th) of the month/` at the start of `s`. -/
def tryOrdinalDayAt (s : Str) : Option Str :=
  let (d, r1) := takeDigitRun s
  if d.isEmpty then none
  else if ordSuffixAt r1 then
    match stripLit " of the month".toList (r1.drop 2) with
    | some _ => some d
    | none => none
  else none

/-- The captured digits of the leftmost `/(\d+)(st|nd|rd|th) of the month/`. -/
def scanOrdinalDay : Str → Option Str
  | [] => none
  | c :: rest =>
    match tryOrdinalDayAt (c :: rest) with
    | some d => some d
    | none => scanOrdinalDay rest

/-- `PatternMatcher.matchDayOfMonthPatterns`: requires the substring
`of the month`; a captured day outside 1–31 throws. -/
def matchDayOfMonthPatterns (input : Str) : Except NLPError (Option Str) := do
  if hasSub "of the month".toList input then
    match scanOrdinalDay input with
    | none => return none
    | some d =>
      let day := digitsToNat d
      if 1 ≤ day ∧ day ≤ 31 then return some (natStr day)
      else throw (.invalidNaturalLanguage input
        "Day of month must be between 1 and 31".toList)
  else return none

/-- A month name (from `MONTHS`) as a prefix, with its value and the rest. -/
def parseMonthName (s : Str) : Option (Nat × Str) :=
  MONTHS.foldl
    (fun acc p => acc <|> (stripLit p.1 s).map (fun r => (p.2, r))) none

/-- The body of the anchored month-list pattern
`(month)(?:,\s?(month))*$`: month names separated by a comma and an
optional single whitespace, up to the end of the string.  The fuel only
drives structural recursion; each step consumes at least one character,
and `parseEveryMonthList` supplies `length + 1`. -/
def parseMonthSeq : Nat → Str → Option (List Nat)
  | 0, _ => none
  | fuel + 1, s =>
    match parseMonthName s with
    | none => none
    | some (v, r) =>
      match r with
      | [] => some [v]
      | ',' :: r2 =>
        let r3 := match r2 with
          | c :: rr => if isWs c then rr else r2
          | [] => r2
        match parseMonthSeq fuel r3 with
        | some vs => some (v :: vs)
        | none => none
      | _ => none

/-- The anchored `/^every ((month)(?:,\s?(month))*)$/i` of
`matchSpecificMonthPatterns`, already mapped through `MONTHS`. -/
def parseEveryMonthList (input : Str) : Option (List Nat) :=
  match stripLit "every ".toList input with
  | none => none
  | some r => parseMonthSeq (r.length + 1) r

/-- One attempt of `` `${monthName} (\d+)(st|nd|rd|th)` `` at the start
of `s`. -/
def tryMonthDayAt (name : Str) (s : Str) : Option Str :=
  match stripLit (name ++ [' ']) s with
  | none => none
  | some r =>
    let (d, r1) := takeDigitRun r
    if d.isEmpty then none
    else if ordSuffixAt r1 then some d else none

/-- The captured day digits of the leftmost `monthName (\d+)(st|nd|rd|th)`. -/
def scanMonthDay (name : Str) : Str → Option Str
  | [] => none
  | c :: rest =>
    match tryMonthDayAt name (c :: rest) with
    | some d => some d
    | none => scanMonthDay name rest

/-- `PatternMatcher.matchSpecificMonthPatterns`: either the anchored
`every <month list>` (day-of-month defaults to `1`), or the months
mentioned anywhere in the input, each checked for an adjacent ordinal day
(the last month with a day wins; a day outside 1–31 throws); multiple
months are JS-sorted and comma-joined.  Returns `(month, dayOfMonth?)`. -/
def matchSpecificMonthPatterns (input : Str) :
    Except NLPError (Option (Str × Option Str)) := do
  match parseEveryMonthList input with
  | some months =>
    return some (joinChar ',' (months.map natStr), some "1".toList)
  | none =>
    let mut monthList : List Nat := []
    let mut dayOfMonth : Option Str := none
    for p in MONTHS do
      if hasSub p.1 input then
        monthList := monthList ++ [p.2]
        match scanMonthDay p.1 input with
        | some d =>
          let day := digitsToNat d
          if 1 ≤ day ∧ day ≤ 31 then dayOfMonth := some (natStr day)
          else throw (.invalidNaturalLanguage input
            "Day of month must be between 1 and 31".toList)
        | none => pure ()
    if monthList.isEmpty then return none
    else
      let month := match monthList with
        | [v] => natStr v
        | _ => joinChar ',' ((sortJSNum monthList).map natStr)
      return some (month, dayOfMonth)

/-- One attempt of `/(\d+)(?::(\d+))?\s*(am|pm)/` at the start of `s`,
returning the captures and the remainder after the match. -/
def tryTimeAt (s : Str) : Option ((Str × Option Str × Str) × Str) :=
  let (d, r1) := takeDigitRun s
  if d.isEmpty then none
  else
    match optColonDigits r1 with
    | none => none
    | some (mm, r2) =>
      let r3 := r2.dropWhile isWs
      match periodAt r3 with
      | none => none
      | some p => some ((d, mm, p), r3.drop 2)

/-- Fueled helper for `scanTimes`; each successful match consumes at least
three characters, so `scanTimes`'s `length + 1` fuel never runs out. -/
def scanTimesAux : Nat → Str → List (Str × Option Str × Str)
  | 0, _ => []
  | fuel + 1, s =>
    match s with
    | [] => []
    | c :: rest =>
      match tryTimeAt (c :: rest) with
      | some (t, after) => t :: scanTimesAux fuel after
      | none => scanTimesAux fuel rest

/-- All matches of the global `/(\d+)(?::(\d+))?\s*(am|pm)/gi`, scanned
left to right without overlap. -/
def scanTimes (s : Str) : List (Str × Option Str × Str) :=
  scanTimesAux (s.length + 1) s

/-- The time-extraction `while` loop of
`PatternMatcher.matchTimeWithAtPatterns`: every regex match is converted
to 24h, validated (which can throw) and pushed, in scan order. -/
def extractTimes (input : Str) : Except NLPError (List (Int × Int)) :=
  (scanTimes input).foldlM
    (fun acc t => do
      let (d, mm, p) := t
      let m : Int := match mm with
        | some ds => (digitsToNat ds : Int)
        | none => 0
      let h := convertTo24Hour (digitsToNat d) p
      validateTime h m
      pure (acc ++ [(h, m)]))
    []

/-- `PatternMatcher.matchTimeWithAtPatterns`: requires the substring `at`;
every extracted time is converted to 24h and validated in order; a single
time sets hour and minute, several times set the hour to the comma list
of all hours and the minute to the FIRST time's minute (`times[0]`).
Returns `(hour, minute)` on a match. -/
def matchTimeWithAtPatterns (input : Str) :
    Except NLPError (Option (Str × Str)) := do
  if hasSub "at".toList input then
    let times ← extractTimes input
    match times with
    | [] => return none
    | [t] => return some (intToStr t.1, intToStr t.2)
    | t :: _ :: _ =>
      return some (joinChar ',' (times.map (fun x => intToStr x.1)), intToStr t.2)
  else return none

/-- `parseComplexPattern` from `src/nlp.ts` (second evolution): seed the
accumulator `{minute = "0", hour = "0", dayOfMonth = "*", month = "*",
dayOfWeek = "*"}`, return an interval/monthly/yearly match outright,
otherwise fill fields from the day-of-week, day-of-month, month,
time-with-`at` and time-range matchers, join in field order, and run the
result through the `CronTabExpression` constructor.  The constructor
discards the validator's boolean (see `CronTabExpression.construct`), so
the `catch` branch that would raise `InvalidCronExpressionError` is dead
code.  (The constructor's offset argument defaults to the environment's
local UTC offset in the source; it plays no role in validation, so `0` is
passed here.) -/
def parseComplexPattern (input : Str) : Except NLPError Str := do
  let mut minute := "0".toList
  let mut hour := "0".toList
  let mut dayOfMonth := "*".toList
  let mut month := "*".toList
  let mut dayOfWeek := "*".toList
  match ← matchIntervalPatterns input with
  | some e => return e
  | none => pure ()
  match ← matchMonthlyPatterns input with
  | some e => return e
  | none => pure ()
  match ← matchYearlyPatterns input with
  | some e => return e
  | none => pure ()
  match matchDayOfWeekPatterns input with
  | some d => dayOfWeek := d
  | none => pure ()
  match ← matchDayOfMonthPatterns input with
  | some d => dayOfMonth := d
  | none => pure ()
  match ← matchSpecificMonthPatterns input with
  | some md =>
    month := md.1
    match md.2 with
    | some d => if dayOfMonth = "*".toList then dayOfMonth := d
    | none => pure ()
  | none => pure ()
  match ← matchTimeWithAtPatterns input with
  | some hm =>
    hour := hm.1
    minute := hm.2
  | none => pure ()
  match ← matchTimeRangePatterns input with
  | some mh =>
    hour := mh.2
    minute := mh.1
  | none => pure ()
  let result := trimChars (joinChar ' ' [minute, hour, dayOfMonth, month, dayOfWeek])
  match CronTabExpression.construct result 0 with
  | .ok cron => return cron.expression
  | .error e => throw (.invalidCronExpression result e)

/-- `getCronTabExpressionForNaturalLanguageSchedule` from `src/nlp.ts`
(second evolution): normalize, then try the basic, interval, monthly and
yearly tiers in order, falling back to `parseComplexPattern`. -/
def getCronTabExpressionForNaturalLanguageSchedule (input : Str) :
    Except NLPError Str := do
  let normalizedInput ← normalizeInput input
  match matchBasicPatterns normalizedInput with
  | some e => return e
  | none => pure ()
  match ← matchIntervalPatterns normalizedInput with
  | some e => return e
  | none => pure ()
  match ← matchMonthlyPatterns normalizedInput with
  | some e => return e
  | none => pure ()
  match ← matchYearlyPatterns normalizedInput with
  | some e => return e
  | none => pure ()
  parseComplexPattern normalizedInput

end Cronx

namespace Cronx

/-- The composition checked by the spec's `validate(parse(x))` property:
parse the input and run the grammar validator over the result (`false`
when parsing itself raised). -/
def parsesToValid (x : Str) : Bool :=
  match getCronTabExpressionForNaturalLanguageSchedule x with
  | .ok e => validateCronTabExpressionString e
  | .error _ => false

end Cronx

namespace Cronx

/-- The per-piece body of `convertDayOfWeekToBase` (the `map` callback in
the source), with the recursive call expressed through the top-level
function. -/
def convertDOWPiece (sundayIs : Nat) (piece : Str) : Str :=
  if dowLiteralGuard piece || piece.isEmpty ||
      ((jsParseInt piece).isNone && !piece.contains '-' && !piece.contains '/') then
    piece
  else if piece.contains '/' then
    convertDayOfWeekToBase ((splitChar '/' piece).getD 0 []) sundayIs
      ++ '/' :: (splitChar '/' piece).getD 1 []
  else if piece.contains '-' then
    match jsParseInt ((splitChar '-' piece).getD 0 []),
        jsParseInt ((splitChar '-' piece).getD 1 []) with
    | some startNum, some endNum =>
      intToStr (if sundayIs = 1 then (startNum + 6).tmod 7 else startNum + 1)
        ++ '-' :: intToStr (if sundayIs = 1 then (endNum + 6).tmod 7 else endNum + 1)
    | _, _ => piece
  else
    match jsParseInt piece with
    | some num => intToStr (if sundayIs = 1 then (num + 6).tmod 7 else num + 1)
    | none => piece

end Cronx

-- ===== THEOREMS =====



namespace Cronx

/-! ## Supporting lemmas about the string primitives -/

theorem splitChar_ne_nil (sep : Char) (l : Str) : splitChar sep l ≠ [] := by
  induction l with
  | nil => simp [splitChar]
  | cons c rest ih =>
    simp only [splitChar]
    split
    · simp
    · cases h : splitChar sep rest with
      | nil => simp
      | cons p ps => simp

theorem length_le_of_mem_splitChar {sep : Char} {l p : Str}
    (h : p ∈ splitChar sep l) : p.length ≤ l.length := by
  induction l generalizing p with
  | nil =>
    simp [splitChar] at h
    simp [h]
  | cons c rest ih =>
    simp only [splitChar] at h
    split at h
    · rcases List.mem_cons.mp h with rfl | h
      · simp
      · exact Nat.le_succ_of_le (ih h)
    · cases heq : splitChar sep rest with
      | nil => exact absurd heq (splitChar_ne_nil sep rest)
      | cons q qs =>
        rw [heq] at h
        rcases List.mem_cons.mp h with rfl | h
        · have : q.length ≤ rest.length := ih (heq ▸ List.mem_cons_self q qs)
          simpa using Nat.succ_le_succ this
        · have : p ∈ splitChar sep rest := heq ▸ List.mem_cons_of_mem q h
          exact Nat.le_succ_of_le (ih this)

theorem trimChars_length_le (l : Str) : (trimChars l).length ≤ l.length := by
  unfold trimChars
  calc ((l.dropWhile isWs).reverse.dropWhile isWs).reverse.length
      = ((l.dropWhile isWs).reverse.dropWhile isWs).length := by
        rw [List.length_reverse]
    _ ≤ (l.dropWhile isWs).reverse.length := (List.dropWhile_suffix _).length_le
    _ = (l.dropWhile isWs).length := by rw [List.length_reverse]
    _ ≤ l.length := (List.dropWhile_suffix _).length_le

theorem getD_splitChar_length_lt {sep : Char} {l : Str} (h : l.contains sep) :
    ((splitChar sep l).getD 0 []).length < l.length := by
  induction l with
  | nil => simp at h
  | cons c rest ih =>
    simp only [splitChar]
    by_cases hc : c = sep
    · simp [hc]
    · have hrest : rest.contains sep := by
        simp only [List.contains_cons] at h
        rcases Bool.or_eq_true_iff.mp h with h1 | h1
        · exact absurd (beq_iff_eq.mp h1).symm hc
        · exact h1
      simp only [if_neg hc]
      cases heq : splitChar sep rest with
      | nil => exact absurd heq (splitChar_ne_nil sep rest)
      | cons q qs =>
        have := ih hrest
        rw [heq] at this
        simpa using Nat.succ_lt_succ this

end Cronx

-- Sanity checks against the examples in the validators' doc comments.
example : Cronx.validateMinute "30".toList = true := by decide
example : Cronx.validateMinute "*/15".toList = true := by decide
example : Cronx.validateMinute "0-30".toList = true := by decide
example : Cronx.validateMinute "5,10,15".toList = true := by decide
example : Cronx.validateMinute "60".toList = false := by decide
example : Cronx.validateRange "10-5".toList 0 59 = false := by decide
example : Cronx.validateDayOfMonth "L-3".toList = true := by decide
example : Cronx.validateDayOfMonth "15W".toList = true := by decide
example : Cronx.validateDayOfWeek "5L".toList = true := by decide
example : Cronx.validateDayOfWeek "2#3".toList = true := by decide
example : Cronx.validateDayOfWeek "MON-FRI".toList = false := by decide
example : Cronx.validateDayOfWeek "mon".toList = true := by decide
example : Cronx.validateMonth "JAN".toList = true := by decide
example : Cronx.validateCronTabExpressionString "0 0 * * *".toList = true := by
  decide
example : Cronx.validateCronTabExpressionString "*/15 9-17 * * 1-5".toList = true := by
  decide
example : Cronx.validateCronTabExpressionString "0 0 1,15 * ?".toList = true := by
  decide
example : Cronx.validateCronTabExpressionString "0 0".toList = false := by decide
example : Cronx.validateCronTabExpressionString "60 0 * * *".toList = false := by
  decide
-- Sanity checks against `src/cron.test.ts` and the doc-comment examples.
example : Cronx.convertCronZeroBasedDaysToOneBased "0 0 * * 0".toList
    = .ok "0 0 * * 1".toList := by decide
example : Cronx.convertCronZeroBasedDaysToOneBased "0 0 * * 6".toList
    = .ok "0 0 * * 7".toList := by decide
example : Cronx.convertCronZeroBasedDaysToOneBased "0 0 * * 4,6".toList
    = .ok "0 0 * * 5,7".toList := by decide
example : Cronx.convertCronZeroBasedDaysToOneBased "0 0 * * 0-3".toList
    = .ok "0 0 * * 1-4".toList := by decide
example : Cronx.convertCronZeroBasedDaysToOneBased "0 0 * * 3-1".toList
    = .ok "0 0 * * 4-7,1-2".toList := by decide
example : Cronx.convertHourField "14".toList (-3) = "17".toList := by decide
example : Cronx.convertHourField "14-18".toList (-3) = "17-21".toList := by decide
example : Cronx.convertHourField "12,14,15".toList (-3) = "15,17,18".toList := by
  decide
example : Cronx.convertHourField "20-24".toList (-3) = "23,0-3".toList := by decide
example : Cronx.convertDayOfWeekToBase "5".toList 1 = "4".toList := by decide
example : Cronx.convertDayOfWeekToBase "0,2-4".toList 0 = "1,3-5".toList := by
  decide
example : Cronx.convertDayOfWeekToBase "MON,WED".toList 0 = "MON,WED".toList := by
  decide
example : Cronx.convertDayOfWeekToBase "3-1".toList 0 = "4-2".toList := by decide

namespace Cronx

/-! ## Decimal-string lemmas -/

theorem natStrAux_eq_natStr (n : Nat) : ∀ fuel, n < fuel → natStrAux fuel n = natStr n := by
  induction n using Nat.strong_induction_on with
  | _ n ih =>
    intro fuel hf
    match fuel, hf with
    | f + 1, hf =>
      show natStrAux (f + 1) n = natStrAux (n + 1) n
      simp only [natStrAux]
      by_cases h10 : n < 10
      · simp [h10]
      · have hdiv : n / 10 < n := Nat.div_lt_self (by omega) (by omega)
        have h1 : n / 10 < f := by omega
        simp only [if_neg h10]
        rw [ih (n / 10) hdiv f h1, ih (n / 10) hdiv n (by omega)]

/-- The recurrence defining `natStr` in the source. -/
theorem natStr_eq (n : Nat) :
    natStr n = if n < 10 then [Char.ofNat (48 + n)]
      else natStr (n / 10) ++ [Char.ofNat (48 + n % 10)] := by
  show natStrAux (n + 1) n = _
  simp only [natStrAux]
  by_cases h10 : n < 10
  · simp [h10]
  · have hdiv : n / 10 < n := Nat.div_lt_self (by omega) (by omega)
    simp only [if_neg h10]
    rw [natStrAux_eq_natStr (n / 10) n hdiv]

theorem natStr_all_digits (n : Nat) : ∀ c ∈ natStr n, c.isDigit = true := by
  induction n using Nat.strong_induction_on with
  | _ n ih =>
    rw [natStr_eq]
    by_cases h10 : n < 10
    · simp only [if_pos h10, List.mem_singleton]
      rintro c rfl
      interval_cases n <;> decide
    · simp only [if_neg h10, List.mem_append, List.mem_singleton]
      rintro c (hc | rfl)
      · exact ih (n / 10) (Nat.div_lt_self (by omega) (by omega)) c hc
      · have hm : n % 10 < 10 := Nat.mod_lt _ (by omega)
        set m := n % 10 with hmdef
        interval_cases m <;> decide

theorem natStr_ne_nil (n : Nat) : natStr n ≠ [] := by
  rw [natStr_eq]
  by_cases h10 : n < 10 <;> simp [h10]

theorem digitsToNat_natStr (n : Nat) : digitsToNat (natStr n) = n := by
  induction n using Nat.strong_induction_on with
  | _ n ih =>
    rw [natStr_eq]
    by_cases h10 : n < 10
    · simp only [if_pos h10]
      interval_cases n <;> decide
    · simp only [if_neg h10]
      have hfold : digitsToNat (natStr (n / 10) ++ [Char.ofNat (48 + n % 10)])
          = digitsToNat (natStr (n / 10)) * 10 + digitVal (Char.ofNat (48 + n % 10)) := by
        unfold digitsToNat
        rw [List.foldl_append]
        simp
      rw [hfold, ih (n / 10) (Nat.div_lt_self (by omega) (by omega))]
      have hm : n % 10 < 10 := Nat.mod_lt _ (by omega)
      have hdv : digitVal (Char.ofNat (48 + n % 10)) = n % 10 := by
        set m := n % 10 with hmdef
        interval_cases m <;> decide
      rw [hdv]
      omega

theorem isWs_eq_false_of_isDigit {c : Char} (h : c.isDigit = true) : isWs c = false := by
  by_contra hw
  rw [Bool.not_eq_false] at hw
  unfold isWs at hw
  simp only [Bool.or_eq_true, decide_eq_true_eq] at hw
  rcases hw with ((rfl | rfl) | rfl) | rfl <;> exact absurd h (by decide)

theorem dropWhile_eq_self_of_none {p : Char → Bool} {l : Str}
    (h : ∀ c ∈ l, p c = false) : l.dropWhile p = l := by
  cases l with
  | nil => rfl
  | cons c rest => simp [List.dropWhile, h c (List.mem_cons_self c rest)]

theorem takeWhile_eq_self_of_all {p : Char → Bool} {l : Str}
    (h : ∀ c ∈ l, p c = true) : l.takeWhile p = l := by
  induction l with
  | nil => rfl
  | cons c rest ih =>
    simp only [List.takeWhile, h c (List.mem_cons_self c rest)]
    rw [ih (fun x hx => h x (List.mem_cons_of_mem c hx))]

theorem trimChars_eq_self_of_no_ws {l : Str} (h : ∀ c ∈ l, isWs c = false) :
    trimChars l = l := by
  unfold trimChars
  rw [dropWhile_eq_self_of_none h,
      dropWhile_eq_self_of_none (fun c hc => h c (List.mem_reverse.mp hc)),
      List.reverse_reverse]

theorem natStr_head_digit (n : Nat) :
    ∃ c cs, natStr n = c :: cs ∧ c.isDigit = true := by
  obtain ⟨c, cs, hc⟩ := List.exists_cons_of_ne_nil (natStr_ne_nil n)
  exact ⟨c, cs, hc, natStr_all_digits n c (hc ▸ List.mem_cons_self c cs)⟩

theorem jsNumber_digits {l : Str} (hne : l ≠ [])
    (hall : ∀ c ∈ l, c.isDigit = true) :
    jsNumber l = some ((digitsToNat l : Nat) : Int) := by
  unfold jsNumber
  rw [trimChars_eq_self_of_no_ws
    (fun c hc => isWs_eq_false_of_isDigit (hall c hc))]
  obtain ⟨c, cs, rfl⟩ := List.exists_cons_of_ne_nil hne
  have hcd := hall c (List.mem_cons_self c cs)
  have hdash : ¬ c = '-' := by rintro rfl; exact absurd hcd (by decide)
  have hplus : ¬ c = '+' := by rintro rfl; exact absurd hcd (by decide)
  have hAll : (c :: cs).all Char.isDigit = true := List.all_eq_true.mpr hall
  simp only [if_neg hdash, if_neg hplus, hAll, if_pos]

theorem jsNumber_natStr (n : Nat) : jsNumber (natStr n) = some (n : Int) := by
  rw [jsNumber_digits (natStr_ne_nil n) (natStr_all_digits n), digitsToNat_natStr]

theorem jsParseInt_digits {l : Str} (hne : l ≠ [])
    (hall : ∀ c ∈ l, c.isDigit = true) :
    jsParseInt l = some ((digitsToNat l : Nat) : Int) := by
  unfold jsParseInt
  rw [dropWhile_eq_self_of_none
    (fun c hc => isWs_eq_false_of_isDigit (hall c hc))]
  obtain ⟨c, cs, rfl⟩ := List.exists_cons_of_ne_nil hne
  have hcd := hall c (List.mem_cons_self c cs)
  have hdash : ¬ c = '-' := by rintro rfl; exact absurd hcd (by decide)
  have hplus : ¬ c = '+' := by rintro rfl; exact absurd hcd (by decide)
  have htake : (c :: cs).takeWhile Char.isDigit = c :: cs :=
    takeWhile_eq_self_of_all hall
  simp only [if_neg hdash, if_neg hplus, htake]
  simp [List.isEmpty]

theorem jsParseInt_natStr (n : Nat) : jsParseInt (natStr n) = some (n : Int) := by
  rw [jsParseInt_digits (natStr_ne_nil n) (natStr_all_digits n), digitsToNat_natStr]

theorem natStr_contains_eq_false {n : Nat} {c : Char} (hc : c.isDigit = false) :
    (natStr n).contains c = false := by
  by_contra h
  rw [Bool.not_eq_false] at h
  simp only [List.contains] at h
  exact absurd (natStr_all_digits n c (List.elem_iff.mp h)) (by rw [hc]; decide)

theorem natStr_ne_star (n : Nat) : natStr n ≠ "*".toList := by
  intro h
  have := natStr_all_digits n '*' (h ▸ (by decide : '*' ∈ "*".toList))
  exact absurd this (by decide)

end Cronx

namespace Cronx

/-! ## Split/join lemmas -/

theorem splitChar_eq_single {sep : Char} {l : Str} (h : l.contains sep = false) :
    splitChar sep l = [l] := by
  induction l with
  | nil => rfl
  | cons c rest ih =>
    simp only [List.contains_cons, Bool.or_eq_false_iff, beq_eq_false_iff_ne,
      ne_eq] at h
    have hne : ¬ c = sep := fun hh => h.1 hh.symm
    simp only [splitChar, if_neg hne, ih h.2]

theorem splitChar_append {sep : Char} {p rest : Str} (h : p.contains sep = false) :
    splitChar sep (p ++ sep :: rest) = p :: splitChar sep rest := by
  induction p with
  | nil => simp [splitChar]
  | cons c p' ih =>
    simp only [List.contains_cons, Bool.or_eq_false_iff, beq_eq_false_iff_ne,
      ne_eq] at h
    have hne : ¬ c = sep := fun hh => h.1 hh.symm
    simp only [List.cons_append, splitChar, if_neg hne, List.append_eq, ih h.2]

theorem splitChar_joinChar {sep : Char} :
    ∀ (pieces : List Str), pieces ≠ [] → (∀ p ∈ pieces, p.contains sep = false) →
      splitChar sep (joinChar sep pieces) = pieces := by
  intro pieces
  induction pieces with
  | nil => intro h; exact absurd rfl h
  | cons p ps ih =>
    intro _ hall
    cases ps with
    | nil =>
      show splitChar sep (joinChar sep [p]) = [p]
      exact splitChar_eq_single (hall p (List.mem_cons_self p []))
    | cons q ps' =>
      show splitChar sep (p ++ sep :: joinChar sep (q :: ps')) = p :: q :: ps'
      rw [splitChar_append (hall p (List.mem_cons_self p _)),
        ih (by simp) (fun x hx => hall x (List.mem_cons_of_mem p hx))]

theorem joinChar_single (sep : Char) (p : Str) : joinChar sep [p] = p := rfl

end Cronx

namespace Cronx

/-! ## The recurrence of `convertDayOfWeekToBase` -/

theorem convertDayOfWeekToBaseAux_eq_of_lt :
    ∀ (N : Nat) (l : Str), l.length < N → ∀ fuel s, l.length < fuel →
      convertDayOfWeekToBaseAux fuel l s = convertDayOfWeekToBase l s := by
  intro N
  induction N with
  | zero => intro l hl; omega
  | succ n ih =>
    intro l hl fuel s hf
    match fuel, hf with
    | f + 1, hf =>
      show convertDayOfWeekToBaseAux (f + 1) l s
        = convertDayOfWeekToBaseAux (l.length + 1) l s
      simp only [convertDayOfWeekToBaseAux]
      congr 1
      apply List.map_congr_left
      intro piece hmem
      by_cases hg : (dowLiteralGuard piece || piece.isEmpty ||
          ((jsParseInt piece).isNone && !piece.contains '-' &&
            !piece.contains '/')) = true
      · rw [if_pos hg, if_pos hg]
      · rw [if_neg hg, if_neg hg]
        by_cases hs : piece.contains '/' = true
        · rw [if_pos hs, if_pos hs]
          have hlt : ((splitChar '/' piece).getD 0 []).length < l.length := by
            rcases List.mem_map.mp hmem with ⟨q, hq, rfl⟩
            calc ((splitChar '/' (trimChars q)).getD 0 []).length
                < (trimChars q).length := getD_splitChar_length_lt hs
              _ ≤ q.length := trimChars_length_le q
              _ ≤ l.length := length_le_of_mem_splitChar hq
          rw [ih _ (by omega) f s (by omega), ih _ (by omega) l.length s (by omega)]
        · rw [if_neg hs, if_neg hs]

/-- `convertDayOfWeekToBase` satisfies the source's recursion: split on
commas, trim each piece, convert it with the per-piece body (which
recurses through `convertDayOfWeekToBase` on the base of a step token),
and re-join. -/
theorem convertDayOfWeekToBase_eq (dowField : Str) (s : Nat) :
    convertDayOfWeekToBase dowField s
      = joinChar ',' (((splitChar ',' dowField).map trimChars).map
          (convertDOWPiece s)) := by
  show convertDayOfWeekToBaseAux (dowField.length + 1) dowField s = _
  simp only [convertDayOfWeekToBaseAux]
  congr 1
  apply List.map_congr_left
  intro piece hmem
  unfold convertDOWPiece
  by_cases hg : (dowLiteralGuard piece || piece.isEmpty ||
      ((jsParseInt piece).isNone && !piece.contains '-' &&
        !piece.contains '/')) = true
  · rw [if_pos hg, if_pos hg]
  · rw [if_neg hg, if_neg hg]
    by_cases hs : piece.contains '/' = true
    · rw [if_pos hs, if_pos hs]
      have hlt : ((splitChar '/' piece).getD 0 []).length < dowField.length := by
        rcases List.mem_map.mp hmem with ⟨q, hq, rfl⟩
        calc ((splitChar '/' (trimChars q)).getD 0 []).length
            < (trimChars q).length := getD_splitChar_length_lt hs
          _ ≤ q.length := trimChars_length_le q
          _ ≤ dowField.length := length_le_of_mem_splitChar hq
      rw [convertDayOfWeekToBaseAux_eq_of_lt (dowField.length + 1) _ (by omega)
        dowField.length s (by omega)]
    · rw [if_neg hs, if_neg hs]

/-- On a comma-free field the remapper is the per-piece body of the
trimmed field. -/
theorem convertDayOfWeekToBase_single {piece : Str} (s : Nat)
    (h : piece.contains ',' = false) :
    convertDayOfWeekToBase piece s = convertDOWPiece s (trimChars piece) := by
  rw [convertDayOfWeekToBase_eq, splitChar_eq_single h]
  rfl

/-- On a comma-joined list of comma-free pieces the remapper maps the
per-piece body over the trimmed pieces. -/
theorem convertDayOfWeekToBase_join {pieces : List Str} (s : Nat)
    (hne : pieces ≠ []) (hall : ∀ p ∈ pieces, p.contains ',' = false) :
    convertDayOfWeekToBase (joinChar ',' pieces) s
      = joinChar ',' (pieces.map (fun p => convertDOWPiece s (trimChars p))) := by
  rw [convertDayOfWeekToBase_eq, splitChar_joinChar pieces hne hall,
    List.map_map]
  rfl

end Cronx

namespace Cronx

/-! ## Claim theorems -/

/-- Claim C2 (code bug): the `CronTabExpression` constructor is documented
to throw on an invalid expression, and `parseComplexPattern` relies on
that, but `validate()` calls the boolean `validateCronTabExpressionString`
and discards its result: construction always succeeds, even for
`"60 0 * * *"`, which the grammar validator rejects. -/
theorem c2_construction_not_validated :
    (∀ (expression : Str) (offset : Int),
      CronTabExpression.construct expression offset =
        .ok { expression := expression, offset := offset,
              parts := jsSplitWsAll expression }) ∧
    validateCronTabExpressionString "60 0 * * *".toList = false ∧
    CronTabExpression.construct "60 0 * * *".toList 0 =
      .ok { expression := "60 0 * * *".toList, offset := 0,
            parts := ["60".toList, "0".toList, "*".toList, "*".toList,
                      "*".toList] } :=
  ⟨fun _ _ => rfl, by decide, by decide⟩

/-- Claim C3: `convertCronZeroBasedDaysToOneBased` (`src/cron.ts`), the
0-based → 1-based remapper, splits a wrapped day-of-week range into two
comma-joined ranges: for 0-based `a-b` with `b < a` the result is
`(a+1)-7,1-(b+1)`; in particular `3-1` becomes `4-7,1-2`. -/
theorem c3_wraparound_split :
    (∀ a ≤ 6, ∀ b ≤ 6, b < a →
      convertDayField (natStr a ++ '-' :: natStr b)
        = natStr (a + 1) ++ "-7,1-".toList ++ natStr (b + 1)) ∧
    convertDayField "3-1".toList = "4-7,1-2".toList ∧
    convertCronZeroBasedDaysToOneBased "0 0 * * 3-1".toList
      = .ok "0 0 * * 4-7,1-2".toList := by
  refine ⟨?_, by decide, by decide⟩
  decide

/-- Witness for C3 at the claim's own instance `3-1`. -/
theorem c3_wraparound_split_witness :
    (3 : Nat) ≤ 6 ∧ (1 : Nat) ≤ 6 ∧ (1 : Nat) < 3 ∧
    convertDayField (natStr 3 ++ '-' :: natStr 1)
      = natStr 4 ++ "-7,1-".toList ++ natStr 2 :=
  ⟨by decide, by decide, by decide,
    c3_wraparound_split.1 3 (by decide) 1 (by decide) (by decide)⟩

/-- Claim C6 counterexample: the day-of-week validator rejects the
wraparound range `5-1` (the claim said it is accepted). -/
theorem c6_dow_wraparound_counterexample :
    validateDayOfWeek "5-1".toList = false := by decide

/-- Claim C6 as amended: for numeric day-of-week ranges with both ends in
0–6, the validator accepts exactly when `start ≤ end` — wraparound ranges
(`a > b`) are rejected, like in every other field. -/
theorem c6_dow_range_requires_le :
    ∀ a ≤ 6, ∀ b ≤ 6,
      validateDayOfWeek (natStr a ++ '-' :: natStr b) = decide (a ≤ b) := by
  decide

/-- Witness for the amended C6 at `1-5` (accepted) — the hypotheses are
discharged at concrete days. -/
theorem c6_dow_range_requires_le_witness :
    (1 : Nat) ≤ 6 ∧ (5 : Nat) ≤ 6 ∧
    validateDayOfWeek (natStr 1 ++ '-' :: natStr 5) = decide ((1 : Nat) ≤ 5) :=
  ⟨by decide, by decide, c6_dow_range_requires_le 1 (by decide) 5 (by decide)⟩

/-- Claim C10 counterexample: at the claim's stated instance —
`"0 12 * * 6"` formatted with `sundayIs = 1` and an unchanged offset —
the code maps `6` with `(6+6) % 7 = 5`, producing `"0 12 * * 5"`, which
PASSES the validator (the claim said this instance yields `"0 12 * * 7"`
and fails it). -/
theorem c10_format_counterexample :
    CronTabExpression.format
        { expression := "0 12 * * 6".toList, offset := 0,
          parts := jsSplitWsAll "0 12 * * 6".toList } 1 0
      = .ok "0 12 * * 5".toList ∧
    validateCronTabExpressionString "0 12 * * 5".toList = true := by decide

/-- Claim C10 as amended: it is `sundayIs = 0` (0-based input remapped to
1-based) that maps Saturday `6` to `7`; the validator accepts only 0–6,
so formatting the grammar-valid `"0 12 * * 6"` with `sundayIs = 0` and an
unchanged offset yields `"0 12 * * 7"`, which fails
`validateCronTabExpressionString`. -/
theorem c10_format_invalid_output :
    convertDayOfWeekToBase "6".toList 0 = "7".toList ∧
    validateDayOfWeek "7".toList = false ∧
    validateCronTabExpressionString "0 12 * * 6".toList = true ∧
    CronTabExpression.format
        { expression := "0 12 * * 6".toList, offset := 0,
          parts := jsSplitWsAll "0 12 * * 6".toList } 0 0
      = .ok "0 12 * * 7".toList ∧
    validateCronTabExpressionString "0 12 * * 7".toList = false := by decide

/-- Claim C5 counterexample: `validate(parse(x))` is NOT true for all `x`:
the time-range tier composes wraparound hour ranges that the validator
rejects — `parse("from 11pm to 2am")` is `"0 23-2 * * *"` and
`validateCronTabExpressionString` rejects the hour field `23-2`
(`start ≤ end` fails). -/
theorem c5_validate_parse_counterexample :
    getCronTabExpressionForNaturalLanguageSchedule "from 11pm to 2am".toList
      = .ok "0 23-2 * * *".toList ∧
    validateCronTabExpressionString "0 23-2 * * *".toList = false ∧
    parsesToValid "from 11pm to 2am".toList = false := by decide

/-- Claim C5 as amended: composed results pass the grammar validator on
the spec's documented exemplar inputs (and on unrecognized input, whose
fallback is valid), but not universally: a wraparound time range produces
an expression the validator rejects. -/
theorem c5_validate_parse :
    parsesToValid "every day at 3pm".toList = true ∧
    parsesToValid "every 15 minutes".toList = true ∧
    parsesToValid "every monday, wednesday, friday at 3pm".toList = true ∧
    parsesToValid "every hour from 9am to 5pm".toList = true ∧
    parsesToValid "every weekday at 8:30am and 4:30pm".toList = true ∧
    parsesToValid "hourly".toList = true ∧
    parsesToValid "daily".toList = true ∧
    parsesToValid "weekly".toList = true ∧
    parsesToValid "monthly".toList = true ∧
    parsesToValid "yearly".toList = true ∧
    parsesToValid "every 15th of the month at 10am and 6pm".toList = true ∧
    parsesToValid "every december 25th".toList = true ∧
    parsesToValid "monthly at 3:30pm".toList = true ∧
    parsesToValid "xyz".toList = true ∧
    parsesToValid "from 11pm to 2am".toList = false := by decide

end Cronx

namespace Cronx

/-- Claim C9: remapping a 0-based single day 0–6 to 1-based
(`convertDayOfWeekToBase · 0`) and back (`convertDayOfWeekToBase · 1`)
returns the original token, and likewise element-wise for every comma
list of such tokens. -/
theorem c9_remap_roundtrip :
    (∀ d ≤ 6, convertDayOfWeekToBase (convertDayOfWeekToBase (natStr d) 0) 1
      = natStr d) ∧
    (∀ ds : List Nat, ds ≠ [] → (∀ d ∈ ds, d ≤ 6) →
      convertDayOfWeekToBase
          (convertDayOfWeekToBase (joinChar ',' (ds.map natStr)) 0) 1
        = joinChar ',' (ds.map natStr)) := by
  constructor
  · intro d hd
    interval_cases d <;> decide
  · intro ds hne hall
    have hpne : ds.map natStr ≠ [] := by
      simpa using hne
    have hcf : ∀ p ∈ ds.map natStr, p.contains ',' = false := by
      intro p hp
      rcases List.mem_map.mp hp with ⟨d, _, rfl⟩
      exact natStr_contains_eq_false (by decide)
    rw [convertDayOfWeekToBase_join 0 hpne hcf]
    have h1 : (ds.map natStr).map (fun p => convertDOWPiece 0 (trimChars p))
        = (ds.map (fun d => d + 1)).map natStr := by
      rw [List.map_map, List.map_map]
      apply List.map_congr_left
      intro d hd
      have hd6 := hall d hd
      show convertDOWPiece 0 (trimChars (natStr d)) = natStr (d + 1)
      interval_cases d <;> decide
    rw [h1]
    have hpne2 : (ds.map (fun d => d + 1)).map natStr ≠ [] := by
      simpa using hne
    have hcf2 : ∀ p ∈ (ds.map (fun d => d + 1)).map natStr,
        p.contains ',' = false := by
      intro p hp
      rcases List.mem_map.mp hp with ⟨d, _, rfl⟩
      exact natStr_contains_eq_false (by decide)
    rw [convertDayOfWeekToBase_join 1 hpne2 hcf2]
    congr 1
    rw [List.map_map, List.map_map]
    apply List.map_congr_left
    intro d hd
    have hd6 := hall d hd
    show convertDOWPiece 1 (trimChars (natStr (d + 1))) = natStr d
    interval_cases d <;> decide

/-- Witness for C9 at the single day `6` and the list `1,3,5`. -/
theorem c9_remap_roundtrip_witness :
    ((6 : Nat) ≤ 6 ∧
      convertDayOfWeekToBase (convertDayOfWeekToBase (natStr 6) 0) 1
        = natStr 6) ∧
    (([1, 3, 5] : List Nat) ≠ [] ∧ (∀ d ∈ ([1, 3, 5] : List Nat), d ≤ 6) ∧
      convertDayOfWeekToBase
          (convertDayOfWeekToBase
            (joinChar ',' (([1, 3, 5] : List Nat).map natStr)) 0) 1
        = joinChar ',' (([1, 3, 5] : List Nat).map natStr)) :=
  ⟨⟨by decide, c9_remap_roundtrip.1 6 (by decide)⟩,
   ⟨by decide, by decide,
    c9_remap_roundtrip.2 [1, 3, 5] (by decide) (by decide)⟩⟩

end Cronx

namespace Cronx

theorem contains_eq_false_iff {l : Str} {c : Char} :
    l.contains c = false ↔ c ∉ l := by
  simp only [List.contains]
  constructor
  · intro h hm
    rw [List.elem_eq_true_of_mem hm] at h
    cases h
  · intro h
    by_contra hh
    rw [Bool.not_eq_false] at hh
    exact h (List.elem_iff.mp hh)

theorem convertHourField_one_piece {p : Str} (h : p.contains ',' = false)
    (delta : Int) :
    convertHourField p delta = joinChar ',' (convertHourPart delta p) := by
  unfold convertHourField
  rw [splitChar_eq_single h]
  simp

theorem convertHourPart_num {p : Str} {n : Int} (hstar : p ≠ "*".toList)
    (hdash : p.contains '-' = false) (hnum : jsNumber p = some n) (delta : Int) :
    convertHourPart delta p = [intToStr ((n - delta + 24).tmod 24)] := by
  have hd : ¬ (p.contains '-' = true) := by rw [hdash]; simp
  unfold convertHourPart
  rw [if_neg hstar, if_neg hd, hnum]
  rfl

theorem convertHourPart_range {sa sb : Str} {a b : Int}
    (ha : jsNumber sa = some a) (hb : jsNumber sb = some b)
    (hsa : sa.contains '-' = false) (hsb : sb.contains '-' = false)
    (delta : Int) :
    convertHourPart delta (sa ++ '-' :: sb) =
      (let s := (a - delta + 24).tmod 24
       let e := (b - delta + 24).tmod 24
       if s = e then [intToStr s]
       else if s < e then [intToStr s ++ '-' :: intToStr e]
       else [(if s = 23 then "23".toList else intToStr s ++ "-23".toList),
             "0-".toList ++ intToStr e]) := by
  have hmem : ('-' : Char) ∈ sa ++ '-' :: sb := by simp
  have hcontains : (sa ++ '-' :: sb).contains '-' = true := by
    by_contra hh
    rw [Bool.not_eq_true] at hh
    exact contains_eq_false_iff.mp hh hmem
  have hstar : sa ++ '-' :: sb ≠ "*".toList := by
    intro hh
    rw [hh] at hcontains
    exact absurd hcontains (by decide)
  unfold convertHourPart
  rw [if_neg hstar, if_pos hcontains, splitChar_append hsa,
    splitChar_eq_single hsb]
  have e0 : ([sa, sb] : List Str).getD 0 [] = sa := rfl
  have e1 : ([sa, sb] : List Str).getD 1 [] = sb := rfl
  simp only [e0, e1, ha, hb, Option.map_some', jsEq, jsLt, jsNumToStr,
    beq_iff_eq, decide_eq_true_eq]

/-- Claim C4: `shiftHours` (`convertHourField` with
`delta = timezoneOffset`) leaves `*` unchanged for every delta; maps a
single hour `h` to `(h - delta + 24) % 24` (JS `%`, i.e. `Int.tmod`);
shifts both ends of a range `a-b` identically, collapsing equal shifted
ends to a single value, keeping `start < end` as a range, and splitting
`start > end` into `start-23` (collapsed to `23` when `start = 23`) and
`0-end`; and shifts comma-list elements independently, flattening the
results.  In particular `shiftHours("14-18", -3) = "17-21"`. -/
theorem c4_shiftHours :
    (∀ delta : Int, convertHourField "*".toList delta = "*".toList) ∧
    (∀ h : Nat, h ≤ 23 → ∀ delta : Int,
      convertHourField (natStr h) delta
        = intToStr (((h : Int) - delta + 24).tmod 24)) ∧
    (∀ a : Nat, a ≤ 23 → ∀ b : Nat, b ≤ 23 → ∀ delta : Int,
      convertHourField (natStr a ++ '-' :: natStr b) delta
        = (let s := ((a : Int) - delta + 24).tmod 24
           let e := ((b : Int) - delta + 24).tmod 24
           if s = e then intToStr s
           else if s < e then intToStr s ++ '-' :: intToStr e
           else (if s = 23 then "23".toList else intToStr s ++ "-23".toList)
             ++ ',' :: "0-".toList ++ intToStr e)) ∧
    (∀ (pieces : List Str) (delta : Int), pieces ≠ [] →
      (∀ p ∈ pieces, p.contains ',' = false) →
      convertHourField (joinChar ',' pieces) delta
        = joinChar ',' (pieces.flatMap (convertHourPart delta))) ∧
    convertHourField "14-18".toList (-3) = "17-21".toList := by
  refine ⟨?_, ?_, ?_, ?_, by decide⟩
  · intro delta
    rfl
  · intro h _ delta
    rw [convertHourField_one_piece (natStr_contains_eq_false (by decide)) delta,
      convertHourPart_num (natStr_ne_star h)
        (natStr_contains_eq_false (by decide)) (jsNumber_natStr h) delta]
    rfl
  · intro a _ b _ delta
    have hcomma : (natStr a ++ '-' :: natStr b).contains ',' = false := by
      rw [contains_eq_false_iff]
      intro hm
      rcases List.mem_append.mp hm with hm | hm
      · exact contains_eq_false_iff.mp (natStr_contains_eq_false (by decide)) hm
      · rcases List.mem_cons.mp hm with hm | hm
        · cases hm
        · exact contains_eq_false_iff.mp
            (natStr_contains_eq_false (by decide)) hm
    rw [convertHourField_one_piece hcomma delta,
      convertHourPart_range (jsNumber_natStr a) (jsNumber_natStr b)
        (natStr_contains_eq_false (by decide))
        (natStr_contains_eq_false (by decide)) delta]
    simp only []
    split_ifs <;> simp [joinChar]
  · intro pieces delta hne hall
    unfold convertHourField
    rw [splitChar_joinChar pieces hne hall]

/-- Witness for C4, instantiating the quantified conjuncts: the single
hour `14` at `delta = -3`, the range `14-18` at `delta = -3`, and the
two-piece list `["14", "20-24"]` at `delta = -3`. -/
theorem c4_shiftHours_witness :
    ((14 : Nat) ≤ 23 ∧
      convertHourField (natStr 14) (-3)
        = intToStr ((((14 : Nat) : Int) - (-3) + 24).tmod 24)) ∧
    ((14 : Nat) ≤ 23 ∧ (18 : Nat) ≤ 23 ∧
      convertHourField (natStr 14 ++ '-' :: natStr 18) (-3)
        = (let s := (((14 : Nat) : Int) - (-3) + 24).tmod 24
           let e := (((18 : Nat) : Int) - (-3) + 24).tmod 24
           if s = e then intToStr s
           else if s < e then intToStr s ++ '-' :: intToStr e
           else (if s = 23 then "23".toList else intToStr s ++ "-23".toList)
             ++ ',' :: "0-".toList ++ intToStr e)) ∧
    (["14".toList, "20-24".toList] ≠ [] ∧
      (∀ p ∈ ["14".toList, "20-24".toList], p.contains ',' = false) ∧
      convertHourField (joinChar ',' ["14".toList, "20-24".toList]) (-3)
        = joinChar ','
            (["14".toList, "20-24".toList].flatMap (convertHourPart (-3)))) :=
  ⟨⟨by decide, c4_shiftHours.2.1 14 (by decide) (-3)⟩,
   ⟨by decide, by decide, c4_shiftHours.2.2.1 14 (by decide) 18 (by decide) (-3)⟩,
   ⟨by decide, by decide,
    c4_shiftHours.2.2.2.1 ["14".toList, "20-24".toList] (-3) (by decide)
      (by decide)⟩⟩

end Cronx

namespace Cronx

theorem exceptBind_ok {e a b : Type} (x : a) (f : a → Except e b) :
    (Except.ok x : Except e a) >>= f = f x := rfl

theorem exceptBind_err {e a b : Type} (err : e) (f : a → Except e b) :
    (Except.error err : Except e a) >>= f = Except.error err := rfl

theorem exceptPure {e a : Type} (x : a) :
    (pure x : Except e a) = Except.ok x := rfl

theorem exceptThrow {e a : Type} (err : e) :
    (throw err : Except e a) = Except.error err := rfl

/-- Claim C1 counterexample: on input `"xyz"` no pattern tier produces any
field assignment, yet `parse` returns the accumulator defaults
`"0 0 * * *"` (daily at midnight), not the universal wildcard
`"* * * * *"`. -/
theorem c1_fallback_counterexample :
    matchBasicPatterns "xyz".toList = none ∧
    matchIntervalPatterns "xyz".toList = .ok none ∧
    matchMonthlyPatterns "xyz".toList = .ok none ∧
    matchYearlyPatterns "xyz".toList = .ok none ∧
    matchDayOfWeekPatterns "xyz".toList = none ∧
    matchDayOfMonthPatterns "xyz".toList = .ok none ∧
    matchSpecificMonthPatterns "xyz".toList = .ok none ∧
    matchTimeWithAtPatterns "xyz".toList = .ok none ∧
    matchTimeRangePatterns "xyz".toList = .ok none ∧
    getCronTabExpressionForNaturalLanguageSchedule "xyz".toList
      = .ok "0 0 * * *".toList ∧
    "0 0 * * *".toList ≠ "* * * * *".toList := by
  refine ⟨by decide, by decide, by decide, by decide, by decide, by decide,
    by decide, by decide, by decide, by decide, by decide⟩

/-- Claim C1 as amended: whenever no matcher produces an assignment on the
normalized input, `parse` returns `"0 0 * * *"` — the seeded accumulator
`{minute = "0", hour = "0", dayOfMonth = "*", month = "*",
dayOfWeek = "*"}` joined in field order — and does not raise. -/
theorem c1_fallback_daily_midnight :
    ∀ (x nx : Str),
      normalizeInput x = .ok nx →
      matchBasicPatterns nx = none →
      matchIntervalPatterns nx = .ok none →
      matchMonthlyPatterns nx = .ok none →
      matchYearlyPatterns nx = .ok none →
      matchDayOfWeekPatterns nx = none →
      matchDayOfMonthPatterns nx = .ok none →
      matchSpecificMonthPatterns nx = .ok none →
      matchTimeWithAtPatterns nx = .ok none →
      matchTimeRangePatterns nx = .ok none →
      getCronTabExpressionForNaturalLanguageSchedule x = .ok "0 0 * * *".toList := by
  intro x nx h0 h1 h2 h3 h4 h5 h6 h7 h8 h9
  simp only [getCronTabExpressionForNaturalLanguageSchedule, parseComplexPattern,
    h0, h1, h2, h3, h4, h5, h6, h7, h8, h9, exceptBind_ok, exceptBind_err,
    exceptPure]
  rfl

/-- Witness for the amended C1 at the unrecognized input `"xyz"`. -/
theorem c1_fallback_daily_midnight_witness :
    normalizeInput "xyz".toList = .ok "xyz".toList ∧
    matchBasicPatterns "xyz".toList = none ∧
    matchIntervalPatterns "xyz".toList = .ok none ∧
    matchMonthlyPatterns "xyz".toList = .ok none ∧
    matchYearlyPatterns "xyz".toList = .ok none ∧
    matchDayOfWeekPatterns "xyz".toList = none ∧
    matchDayOfMonthPatterns "xyz".toList = .ok none ∧
    matchSpecificMonthPatterns "xyz".toList = .ok none ∧
    matchTimeWithAtPatterns "xyz".toList = .ok none ∧
    matchTimeRangePatterns "xyz".toList = .ok none ∧
    getCronTabExpressionForNaturalLanguageSchedule "xyz".toList
      = .ok "0 0 * * *".toList :=
  ⟨by decide, by decide, by decide, by decide, by decide, by decide, by decide,
   by decide, by decide, by decide,
   c1_fallback_daily_midnight "xyz".toList "xyz".toList (by decide) (by decide)
     (by decide) (by decide) (by decide) (by decide) (by decide) (by decide)
     (by decide) (by decide)⟩

/-- Claim C7 counterexample: on `"every day at 3pm and 4:30pm"` the time
tier extracts `(15, 0)` and `(16, 30)`; the composed expression is
`"0 15,16 * * *"` — the minute is the FIRST time's `0`, not the non-zero
`30` the claim predicts. -/
theorem c7_multi_time_counterexample :
    extractTimes "every day at 3pm and 4:30pm".toList
      = .ok [(15, 0), (16, 30)] ∧
    getCronTabExpressionForNaturalLanguageSchedule
        "every day at 3pm and 4:30pm".toList
      = .ok "0 15,16 * * *".toList ∧
    "0 15,16 * * *".toList ≠ "30 15,16 * * *".toList := by
  refine ⟨by decide, by decide, by decide⟩

/-- Claim C7 as amended: with several extracted times, the hour field is
the comma list of all extracted hours and the minute field is ALWAYS the
first extracted time's minute (`times[0].minute`), regardless of which
time specified a non-zero minute. -/
theorem c7_multi_time_minute :
    ∀ (input : Str) (t : Int × Int) (ts : List (Int × Int)),
      hasSub "at".toList input = true →
      extractTimes input = .ok (t :: ts) →
      ts ≠ [] →
      matchTimeWithAtPatterns input
        = .ok (some (joinChar ',' ((t :: ts).map (fun x => intToStr x.1)),
            intToStr t.2)) := by
  intro input t ts hsub hext hne
  obtain ⟨u, us, rfl⟩ := List.exists_cons_of_ne_nil hne
  simp only [matchTimeWithAtPatterns, hsub, hext, exceptBind_ok, exceptBind_err,
    exceptPure, if_true]

/-- Witness for the amended C7 at `"every day at 3pm and 4:30pm"`. -/
theorem c7_multi_time_minute_witness :
    hasSub "at".toList "every day at 3pm and 4:30pm".toList = true ∧
    extractTimes "every day at 3pm and 4:30pm".toList
      = .ok [(15, 0), (16, 30)] ∧
    ([((16 : Int), (30 : Int))] : List (Int × Int)) ≠ [] ∧
    matchTimeWithAtPatterns "every day at 3pm and 4:30pm".toList
      = .ok (some (joinChar ','
          (([(15, 0), (16, 30)] : List (Int × Int)).map
            (fun x => intToStr x.1)),
          intToStr (0 : Int))) :=
  ⟨by decide, by decide, by decide,
   c7_multi_time_minute "every day at 3pm and 4:30pm".toList (15, 0)
     [(16, 30)] (by decide) (by decide) (by decide)⟩

/-- Claim C8: a captured interval token whose value is out of bound (zero
or above 59 for `every N minutes`) makes `parse` raise
`InvalidNaturalLanguageError` from the interval matcher itself — during
composition, before any composed tuple reaches the grammar validator. -/
theorem c8_interval_out_of_bound :
    ∀ (x nx d : Str),
      normalizeInput x = .ok nx →
      matchBasicPatterns nx = none →
      scanEveryInterval "minutes".toList nx = some d →
      (digitsToNat d = 0 ∨ 59 < digitsToNat d) →
      getCronTabExpressionForNaturalLanguageSchedule x
        = .error (.invalidNaturalLanguage nx
            "Minute interval must be between 1 and 59".toList) := by
  intro x nx d h0 h1 hscan hbound
  have hcond : digitsToNat d ≤ 0 ∨ 59 < digitsToNat d := by omega
  simp only [getCronTabExpressionForNaturalLanguageSchedule,
    matchIntervalPatterns, h0, h1, hscan, if_pos hcond, exceptBind_ok,
    exceptBind_err, exceptPure, exceptThrow]

/-- Witness for C8 at `"every 0 minutes"`. -/
theorem c8_interval_out_of_bound_witness :
    normalizeInput "every 0 minutes".toList = .ok "every 0 minutes".toList ∧
    matchBasicPatterns "every 0 minutes".toList = none ∧
    scanEveryInterval "minutes".toList "every 0 minutes".toList
      = some "0".toList ∧
    (digitsToNat "0".toList = 0 ∨ 59 < digitsToNat "0".toList) ∧
    getCronTabExpressionForNaturalLanguageSchedule "every 0 minutes".toList
      = .error (.invalidNaturalLanguage "every 0 minutes".toList
          "Minute interval must be between 1 and 59".toList) :=
  ⟨by decide, by decide, by decide, by decide,
   c8_interval_out_of_bound "every 0 minutes".toList
     "every 0 minutes".toList "0".toList (by decide) (by decide) (by decide)
     (by decide)⟩

end Cronx
